import Mathlib

/-
Verification of the training orchestration logic in
`panel_segmentation/panel_train.py` (class `TrainPanelSegmentationModel`).

The Python file is shallowly embedded below:
* machine floats that only ever hold exact decimal constants or are compared
  for identity are modelled as rationals (`ℚ`);
* the one place where IEEE division by zero matters (mask normalization)
  is modelled with an explicit value type `NpVal` carrying `nan`/`inf`;
* the keyword arguments each training routine passes to its external engine
  (optimizer learning rate, step counts, checkpoint monitor configuration)
  are modelled as plain records built exactly from the source expressions;
* the in-process `pandas` oversampling loop of `trainMountingConfigClassifier`
  is modelled over lists of annotation rows, with `random.choices` injected
  as a function parameter;
* file writes performed by `trainMountingConfigClassifier` are modelled as an
  ordered write log (last write to a path wins);
* `trainingStatistics` is modelled as a function from the history record to
  either an uncaught key error (with the list of plot artifacts produced
  before the raise) or the lists of saved plot artifacts and printed warnings.
-/

namespace PanelTrain

/-- `TrainPanelSegmentationModel.__init__` (panel_train.py lines 37-46): the
constructor stores `batch_size`, `no_of_epochs` and `learning_rate`; these are
the only hyperparameters shared with the training entry points. -/
structure TrainerConfig where
  batch_size : ℕ
  no_of_epochs : ℕ
  learning_rate : ℚ
deriving DecidableEq

/-- Result values of numpy elementwise float division: either an ordinary
(finite) value or one of the IEEE special values numpy produces on division
by zero. -/
inductive NpVal where
  | num (q : ℚ)
  | nan
  | inf
  | neginf
deriving DecidableEq

/-- `np.max` over a (flattened) array: maximum of all entries.  (numpy raises
on an empty array; the empty case is given the junk value `0` and is never
relied upon.) -/
def npMax (l : List ℚ) : ℚ :=
  match l with
  | [] => 0
  | x :: xs => xs.foldl max x

/-- numpy scalar division `a / b` of finite operands: division by zero yields
`nan` for `0/0` and signed infinity otherwise; no exception is raised. -/
def npDiv (a b : ℚ) : NpVal :=
  if b = 0 then (if a = 0 then NpVal.nan else if 0 < a then NpVal.inf else NpVal.neginf)
  else NpVal.num (a / b)

/-- `trainSegmentation` lines 161-162: `train_mask = train_mask/np.max(train_mask)`
(and identically for `val_mask`).  The mask array is modelled flattened, since
`np.max` is taken over the whole array and the division is elementwise.  There
is no guard of any kind around the division. -/
def normalizeMask (mask : List ℚ) : List NpVal :=
  mask.map (fun x => npDiv x (npMax mask))

/-- The keyword arguments `trainSegmentation` (lines 163-232) passes to the
external engine: data-generator batch size (lines 169-174), the Adam optimizer
parameters (lines 210-214), the `ModelCheckpoint` configuration (lines 217-221)
and the `fit` arguments (lines 223-232). -/
structure SegFitCall where
  epochs : ℕ
  gen_batch_size : ℕ
  steps_per_epoch : ℕ
  validation_steps : ℕ
  optimizer_lr : ℚ
  optimizer_epsilon : ℚ
  monitor : String
  checkpoint_mode : String
  save_best_only : Bool
deriving DecidableEq

/-- `trainSegmentation`: `lr=self.learning_rate, epsilon=1e-08`;
`steps_per_epoch=no_of_training_images//self.batch_size`;
`validation_steps=no_of_val_images//self.batch_size`;
`epochs=self.no_of_epochs`; checkpoint `monitor='val_loss', mode='max',
save_best_only=True`. -/
def trainSegmentationCall (self : TrainerConfig)
    (no_of_training_images no_of_val_images : ℕ) : SegFitCall :=
  { epochs := self.no_of_epochs
    gen_batch_size := self.batch_size
    steps_per_epoch := no_of_training_images / self.batch_size
    validation_steps := no_of_val_images / self.batch_size
    optimizer_lr := self.learning_rate
    optimizer_epsilon := 1 / 100000000
    monitor := "val_loss"
    checkpoint_mode := "max"
    save_best_only := true }

/-- The keyword arguments `trainPanelClassifier` (lines 277-320) passes to the
external engine (same shape of record as the segmentation call). -/
structure ClassifierFitCall where
  epochs : ℕ
  gen_batch_size : ℕ
  steps_per_epoch : ℕ
  validation_steps : ℕ
  optimizer_lr : ℚ
  optimizer_epsilon : ℚ
  monitor : String
  checkpoint_mode : String
  save_best_only : Bool
deriving DecidableEq

/-- `trainPanelClassifier`: `lr=1e-4, epsilon=1e-08` (line 301 — the literal
`1e-4`, not `self.learning_rate`); `steps_per_epoch=no_of_training_images //
self.batch_size`; `validation_steps=no_of_val_images // self.batch_size`;
`epochs=self.no_of_epochs`; checkpoint `monitor='val_accuracy', mode='max',
save_best_only=True`. -/
def trainPanelClassifierCall (self : TrainerConfig)
    (no_of_training_images no_of_val_images : ℕ) : ClassifierFitCall :=
  { epochs := self.no_of_epochs
    gen_batch_size := self.batch_size
    steps_per_epoch := no_of_training_images / self.batch_size
    validation_steps := no_of_val_images / self.batch_size
    optimizer_lr := 1 / 10000
    optimizer_epsilon := 1 / 100000000
    monitor := "val_accuracy"
    checkpoint_mode := "max"
    save_best_only := true }

/-- The arguments `trainMountingConfigClassifier` (lines 408-419) passes to the
external detection engine: `DataLoader(batch_size=self.batch_size)`, the fixed
four-class label list, and `fit(..., epochs=self.no_of_epochs,
learning_rate=self.learning_rate)`. -/
structure MountingFitCall where
  loader_batch_size : ℕ
  epochs : ℕ
  learning_rate : ℚ
  classes : List String
deriving DecidableEq

/-- `trainMountingConfigClassifier` engine arguments (lines 408-419). -/
def trainMountingConfigCall (self : TrainerConfig) : MountingFitCall :=
  { loader_batch_size := self.batch_size
    epochs := self.no_of_epochs
    learning_rate := self.learning_rate
    classes := ["ground-fixed", "carport-fixed", "rooftop-fixed",
                "ground-single_axis_tracker"] }

/-- Modelled from the spec: one epoch of the external deep-learning engine's
checkpoint callback with `save_best_only` (spec section 4.1, "after every
epoch, if the configured monitored metric improves, persist full model
weights").  Under comparison mode `'max'` the callback keeps a running best
value (initially unset, i.e. negative infinity) and writes the checkpoint
exactly when the epoch's monitored value is strictly greater than the running
best, updating the best on each write. -/
def checkpointStep (best : Option ℚ) (v : ℚ) : Bool × Option ℚ :=
  match best with
  | none => (true, some v)
  | some b => if b < v then (true, some v) else (false, some b)

/-- Modelled from the spec: the per-epoch save decisions of the checkpoint
callback over a run, threading the running best through `checkpointStep`. -/
def checkpointSavesAux (best : Option ℚ) : List ℚ → List Bool
  | [] => []
  | v :: rest =>
    let s := checkpointStep best v
    s.1 :: checkpointSavesAux s.2 rest

/-- Modelled from the spec: `checkpointSaves metric` lists, for each epoch of a
run whose per-epoch monitored values are `metric`, whether the checkpoint file
was (over)written after that epoch. -/
def checkpointSaves (metric : List ℚ) : List Bool := checkpointSavesAux none metric

/-- One sample of a 4-D mask/prediction tensor: the three trailing axes. -/
abbrev Sample : Type := List (List (List ℚ))

/-- Sum of a 2-D block (two trailing axes). -/
def sum2 (p : List (List ℚ)) : ℚ := (p.map List.sum).sum

/-- `K.sum(x, axis=[1, 2, 3])` applied to one sample: total of the sample. -/
def sum3 (s : Sample) : ℚ := (s.map sum2).sum

/-- Elementwise product of 2-D blocks. -/
def mul2 (p q : List (List ℚ)) : List (List ℚ) := List.zipWith (List.zipWith (· * ·)) p q

/-- Elementwise product `y_true * y_pred` of one sample. -/
def mul3 (a b : Sample) : Sample := List.zipWith mul2 a b

/-- `K.mean(x, axis=0)` of a 1-D tensor: arithmetic mean. -/
def mean (l : List ℚ) : ℚ := l.sum / (l.length : ℚ)

/-- `diceCoeff` line 98: `intersection = K.sum(y_true * y_pred, axis=[1, 2, 3])`
— per-sample sum of the elementwise product. -/
def diceIntersection (y_true y_pred : List Sample) : List ℚ :=
  List.zipWith (fun a b => sum3 (mul3 a b)) y_true y_pred

/-- `diceCoeff` line 99: `union = K.sum(y_true, axis=[1,2,3]) +
K.sum(y_pred, axis=[1,2,3])` — per-sample sums, added samplewise. -/
def diceUnion (y_true y_pred : List Sample) : List ℚ :=
  List.zipWith (· + ·) (y_true.map sum3) (y_pred.map sum3)

/-- `diceCoeff` lines 98-101: `dice = K.mean((2.*intersection + smooth) /
(union + smooth), axis=0)`.  In the source `smooth` is a parameter with
default value 1. -/
def diceCoeff (y_true y_pred : List Sample) (smooth : ℚ) : ℚ :=
  mean (List.zipWith (fun i u => (2 * i + smooth) / (u + smooth))
    (diceIntersection y_true y_pred) (diceUnion y_true y_pred))

/-- `diceCoeffLoss` line 122: `return 1-self.diceCoeff(y_true, y_pred)` —
`diceCoeff` is called with its default `smooth=1`. -/
def diceCoeffLoss (y_true y_pred : List Sample) : ℚ := 1 - diceCoeff y_true y_pred 1

/-- Every entry of a 2-D block is zero (decidably). -/
def allZero2 (p : List (List ℚ)) : Bool := p.all (fun r => r.all (fun x => decide (x = 0)))

/-- Every entry of a sample is zero (decidably). -/
def allZero3 (s : Sample) : Bool := s.all allZero2

/-- Every entry of a batch is zero (decidably). -/
def allZeroBatch (b : List Sample) : Bool := b.all allZero3

/-- Python dict lookup `results.history[k]` on the history record, modelled as
first-match lookup in an association list (`none` = `KeyError`). -/
def lookupHist (k : String) : List (String × List ℚ) → Option (List ℚ)
  | [] => none
  | p :: rest => if p.1 = k then some p.2 else lookupHist k rest

/-- `trainingStatistics` lines 453-461: the `try` block fetches
`val_accuracy`, then `val_loss`, then (when `mode == 1`) `val_diceCoeff`;
the first missing key aborts the block (`validation_metrics = False`). -/
def valMetricsLookup (results : List (String × List ℚ)) (mode : ℤ) :
    Option (List ℚ × List ℚ × Option (List ℚ)) :=
  match lookupHist "val_accuracy" results with
  | none => none
  | some val_accuracy =>
    match lookupHist "val_loss" results with
    | none => none
    | some val_loss =>
      if mode = 1 then
        match lookupHist "val_diceCoeff" results with
        | none => none
        | some val_dice_coef => some (val_accuracy, val_loss, some val_dice_coef)
      else some (val_accuracy, val_loss, none)

/-- `trainingStatistics` lines 462-513: the `plt.savefig` artifact names, in
source order, as a function of whether the validation metrics were found and
of `mode`. -/
def statsArtifacts (validation_metrics : Bool) (mode : ℤ) : List String :=
  (if mode = 1 then ["Train_dice_coef"] else []) ++ ["Train_loss", "Train_accuracy"]
  ++ (if validation_metrics then
        (if mode = 1 then ["VAL_dice_coef"] else []) ++ ["VAL_loss", "VAL_accuracy"]
      else [])
  ++ ["Training statistics"]
  ++ (if validation_metrics then ["Validation statistics"] else [])

/-- `trainingStatistics` (lines 424-514).  Success carries the saved plot
artifact names and the printed warning messages; an uncaught `KeyError`
carries the missing key and the artifacts produced before the raise.  Source
order: line 448 fetches `accuracy`, line 449 `loss`, line 451 `diceCoeff`
(only when `mode == 1`) — all outside any `try`, and all before the first
`plt.savefig`; then the guarded validation fetch (lines 452-461, printing
"No validation metrics available." on failure), then the plots. -/
def trainingStatistics (results : List (String × List ℚ)) (mode : ℤ) :
    Except (String × List String) (List String × List String) :=
  match lookupHist "accuracy" results with
  | none => Except.error ("accuracy", [])
  | some _train_accuracy =>
    match lookupHist "loss" results with
    | none => Except.error ("loss", [])
    | some _train_loss =>
      match (if mode = 1 then lookupHist "diceCoeff" results else some []) with
      | none => Except.error ("diceCoeff", [])
      | some _train_dice_coef =>
        let validation_metrics := (valMetricsLookup results mode).isSome
        Except.ok (statsArtifacts validation_metrics mode,
          if validation_metrics then [] else ["No validation metrics available."])

/-- One row of the tabular annotation record produced by `xml_to_csv`
(`{imageFilename, class label, boundingBox}`; the class column is called
`'class'` in the source, a reserved word here, hence the field name `cls`). -/
structure AnnotationRow where
  filename : String
  cls : String
  xmin : ℤ
  ymin : ℤ
  xmax : ℤ
  ymax : ℤ
deriving DecidableEq

instance : Inhabited AnnotationRow := ⟨⟨"", "", 0, 0, 0, 0⟩⟩

/-- Number of rows of `t` whose class label is `c` (one entry of the
`value_counts` Series of line 375). -/
def classCount (t : List AnnotationRow) (c : String) : ℕ :=
  t.countP (fun r => decide (r.cls = c))

/-- The distinct class labels of `t`, in first-occurrence order. -/
def classList (t : List AnnotationRow) : List String :=
  (t.map AnnotationRow.cls).dedup

/-- The distinct class labels of `t` paired with their counts. -/
def classPairs (t : List AnnotationRow) : List (String × ℕ) :=
  (classList t).map (fun c => (c, classCount t c))

/-- Descending-count order used by `pandas.Series.value_counts`. -/
def countDescRel (p q : String × ℕ) : Prop := q.2 ≤ p.2

instance : DecidableRel countDescRel := fun p q => Nat.decLe q.2 p.2

/-- Line 375: `class_count = pd.Series(train_data['class'].value_counts())` —
the (class, count) pairs of the training table, sorted by descending count. -/
def valueCounts (t : List AnnotationRow) : List (String × ℕ) :=
  List.insertionSort countDescRel (classPairs t)

/-- Line 378: `class_count.max()` — the largest class count. -/
def maxClassCount (t : List AnnotationRow) : ℕ :=
  ((valueCounts t).map Prod.snd).foldr max 0

/-- Lines 380-381: `list(train_data[train_data['class'] == index].index)` —
the positions of the rows of `t` whose class is `c` (positions model the
default integer index of the freshly read CSV). -/
def classIndexList (t : List AnnotationRow) (c : String) : List ℕ :=
  (List.range t.length).filter (fun i => decide ((t.getD i default).cls = c))

/-- Lines 383-390 for one class `p = (index, count)`: the rows
`train_data.loc[idx]` for `idx` drawn by `choices(class_index_list,
k=number_times_resample)` with `number_times_resample = class_count.max() -
count`.  The random `choices` is injected as the parameter `choice`. -/
def dupRows (choice : List ℕ → ℕ → List ℕ) (t : List AnnotationRow) (mc : ℕ)
    (p : String × ℕ) : List AnnotationRow :=
  (choice (classIndexList t p.1) (mc - p.2)).map (fun i => t.getD i default)

/-- The concatenation of the duplicate blocks appended by the loop, in
iteration order. -/
def dupsOf (choice : List ℕ → ℕ → List ℕ) (t : List AnnotationRow) (mc : ℕ) :
    List (String × ℕ) → List AnnotationRow
  | [] => []
  | p :: rest => dupRows choice t mc p ++ dupsOf choice t mc rest

/-- Lines 377-390: `for index, count in class_count.items(): ... pd.concat`
— each iteration appends its duplicate rows to the accumulating resampled
table. -/
def oversampleLoop (choice : List ℕ → ℕ → List ℕ) (t : List AnnotationRow) (mc : ℕ) :
    List (String × ℕ) → List AnnotationRow → List AnnotationRow
  | [], acc => acc
  | p :: rest, acc => oversampleLoop choice t mc rest (acc ++ dupRows choice t mc p)

/-- Lines 374-392: the full oversampling step of
`trainMountingConfigClassifier` — `train_data_resampled` starts as a copy of
`train_data` and receives the duplicate rows of every class; counts, index
lists and looked-up rows are all taken from the original `train_data`
(`reset_index` does not change the rows). -/
def overSample (choice : List ℕ → ℕ → List ℕ) (train_data : List AnnotationRow) :
    List AnnotationRow :=
  oversampleLoop choice train_data (maxClassCount train_data)
    (valueCounts train_data) train_data

/-- The sum over classes of (maximum class count − that class's count): the
total number of duplicated rows the claim predicts. -/
def totalDeficit (t : List AnnotationRow) : ℕ :=
  ((classList t).map (fun c => maxClassCount t - classCount t c)).sum

/-- The contract `random.choices(population, k)` satisfies at every call site
of the oversampling loop: it returns exactly `k` elements, each drawn from
`population`. -/
abbrev ChoiceOk (choice : List ℕ → ℕ → List ℕ) (t : List AnnotationRow) : Prop :=
  ∀ p ∈ valueCounts t,
    (choice (classIndexList t p.1) (maxClassCount t - p.2)).length
        = maxClassCount t - p.2
    ∧ ∀ i ∈ choice (classIndexList t p.1) (maxClassCount t - p.2),
        i ∈ classIndexList t p.1

/-- Lines 367-368: `dir + '/annotations.csv'`. -/
def annotationsCsvPath (dir : String) : String := dir ++ "/annotations.csv"

/-- The CSV writes `trainMountingConfigClassifier` performs, in source order:
`xml_to_csv` writes the converted training table (lines 369-370), then the
converted validation table (lines 371-372), then line 394 rewrites the
training path with the rebalanced table.  The converted tables themselves are
produced by the external `detecto.utils.xml_to_csv` and enter as parameters. -/
def mountingWriteLog (choice : List ℕ → ℕ → List ℕ) (train_path val_path : String)
    (train_table val_table : List AnnotationRow) : List (String × List AnnotationRow) :=
  [ (annotationsCsvPath train_path, train_table),
    (annotationsCsvPath val_path, val_table),
    (annotationsCsvPath train_path, overSample choice train_table) ]

/-- The content a path holds after a write log has been replayed: the last
write to the path wins. -/
def finalFileContent (log : List (String × List AnnotationRow)) (p : String) :
    Option (List AnnotationRow) :=
  log.foldl (fun acc e => if e.1 = p then some e.2 else acc) none

/-- A concrete annotation table used to exercise the oversampling step. -/
def exampleTable : List AnnotationRow :=
  [⟨"a.png", "ground-fixed", 0, 0, 10, 10⟩,
   ⟨"b.png", "rooftop-fixed", 0, 0, 10, 10⟩,
   ⟨"c.png", "ground-fixed", 0, 0, 10, 10⟩]

/-- A concrete deterministic stand-in for `random.choices` satisfying its
contract: returns `k` elements drawn from the population. -/
def exampleChoice (l : List ℕ) (k : ℕ) : List ℕ :=
  match l with
  | [] => []
  | x :: _ => List.replicate k x

/-- C1: the code at lines 161-162 divides the mask arrays by their own
maximum with no guard whatsoever: evaluated on an all-zero mask, every entry
becomes the IEEE `nan` that `0/0` produces, and no error of any kind is
raised (the normalization is a total function into values, with no error
channel).  The division is indeed by the per-call maximum of the whole batch,
which is `0` here — the very input the spec requires to be rejected with a
fatal, explicit error. -/
theorem normalizeMask_allZero_silent_nan :
    normalizeMask [0, 0] = [NpVal.nan, NpVal.nan] ∧ NpVal.nan ∈ normalizeMask [0, 0] := by
  decide

/-- C7: `diceCoeffLoss` equals exactly 1 minus `diceCoeff` on the same
arguments with the same smoothing constant (the default, 1). -/
theorem diceCoeffLoss_is_one_minus_diceCoeff (y_true y_pred : List Sample) :
    diceCoeffLoss y_true y_pred = 1 - diceCoeff y_true y_pred 1 := rfl

/-- C3 counterexample: a trainer constructed with `learningRate = 2` has its
`trainPanelClassifier` optimizer configured with `1e-4`, not with the
constructed learning rate (line 301 hardcodes `lr=1e-4`). -/
theorem classifier_lr_ignores_config_cex :
    (trainPanelClassifierCall ⟨16, 5, 2⟩ 100 50).optimizer_lr ≠
      (⟨16, 5, 2⟩ : TrainerConfig).learning_rate := by
  show (1 : ℚ) / 10000 ≠ 2
  norm_num

/-- C3 amended: `trainSegmentation` and `trainMountingConfigClassifier`
configure their optimizers with the constructed learning rate, but
`trainPanelClassifier` always uses the fixed value `1e-4`; the constructed
`batchSize` and `epochCount` are shared unchanged by all three pipelines. -/
theorem trainer_lr_usage_amended (cfg : TrainerConfig) (n m : ℕ) :
    (trainSegmentationCall cfg n m).optimizer_lr = cfg.learning_rate
    ∧ (trainMountingConfigCall cfg).learning_rate = cfg.learning_rate
    ∧ (trainPanelClassifierCall cfg n m).optimizer_lr = 1 / 10000
    ∧ (trainSegmentationCall cfg n m).epochs = cfg.no_of_epochs
    ∧ (trainPanelClassifierCall cfg n m).epochs = cfg.no_of_epochs
    ∧ (trainMountingConfigCall cfg).epochs = cfg.no_of_epochs
    ∧ (trainSegmentationCall cfg n m).gen_batch_size = cfg.batch_size
    ∧ (trainPanelClassifierCall cfg n m).gen_batch_size = cfg.batch_size
    ∧ (trainMountingConfigCall cfg).loader_batch_size = cfg.batch_size :=
  ⟨rfl, rfl, rfl, rfl, rfl, rfl, rfl, rfl, rfl⟩

/-- C8: both `trainSegmentation` and `trainPanelClassifier` pass
`steps_per_epoch` and `validation_steps` equal to the integer division of the
sample count by the batch size, so the `n mod b` remainder samples are
dropped for the epoch; in particular 105 samples with batch size 32 give 3
steps, not 4. -/
theorem steps_per_epoch_floor_div (cfg : TrainerConfig) (n m : ℕ)
    (hb : 0 < cfg.batch_size) :
    (trainSegmentationCall cfg n m).steps_per_epoch = n / cfg.batch_size
    ∧ (trainSegmentationCall cfg n m).validation_steps = m / cfg.batch_size
    ∧ (trainPanelClassifierCall cfg n m).steps_per_epoch = n / cfg.batch_size
    ∧ (trainPanelClassifierCall cfg n m).validation_steps = m / cfg.batch_size
    ∧ cfg.batch_size * (trainSegmentationCall cfg n m).steps_per_epoch
        + n % cfg.batch_size = n
    ∧ n % cfg.batch_size < cfg.batch_size
    ∧ (trainSegmentationCall ⟨32, 1, 1⟩ 105 105).steps_per_epoch = 3
    ∧ (trainSegmentationCall ⟨32, 1, 1⟩ 105 105).steps_per_epoch ≠ 4 :=
  ⟨rfl, rfl, rfl, rfl, Nat.div_add_mod n cfg.batch_size, Nat.mod_lt n hb,
    by decide, by decide⟩

/-- Witness for C8 at batch size 32 with 105 training and 64 validation
samples. -/
theorem steps_per_epoch_floor_div_witness :
    (0 < (⟨32, 1, 1⟩ : TrainerConfig).batch_size)
    ∧ ((trainSegmentationCall ⟨32, 1, 1⟩ 105 64).steps_per_epoch = 105 / (⟨32, 1, 1⟩ : TrainerConfig).batch_size
    ∧ (trainSegmentationCall ⟨32, 1, 1⟩ 105 64).validation_steps = 64 / (⟨32, 1, 1⟩ : TrainerConfig).batch_size
    ∧ (trainPanelClassifierCall ⟨32, 1, 1⟩ 105 64).steps_per_epoch = 105 / (⟨32, 1, 1⟩ : TrainerConfig).batch_size
    ∧ (trainPanelClassifierCall ⟨32, 1, 1⟩ 105 64).validation_steps = 64 / (⟨32, 1, 1⟩ : TrainerConfig).batch_size
    ∧ (⟨32, 1, 1⟩ : TrainerConfig).batch_size * (trainSegmentationCall ⟨32, 1, 1⟩ 105 64).steps_per_epoch
        + 105 % (⟨32, 1, 1⟩ : TrainerConfig).batch_size = 105
    ∧ 105 % (⟨32, 1, 1⟩ : TrainerConfig).batch_size < (⟨32, 1, 1⟩ : TrainerConfig).batch_size
    ∧ (trainSegmentationCall ⟨32, 1, 1⟩ 105 105).steps_per_epoch = 3
    ∧ (trainSegmentationCall ⟨32, 1, 1⟩ 105 105).steps_per_epoch ≠ 4) :=
  ⟨by decide, steps_per_epoch_floor_div ⟨32, 1, 1⟩ 105 64 (by decide)⟩

/-- The invariant of the checkpoint callback fold: the `i`-th save decision
holds exactly when epoch `i`'s value strictly exceeds every earlier epoch's
value and the initial running best. -/
theorem checkpointSavesAux_getD (metric : List ℚ) :
    ∀ (best : Option ℚ) (i : ℕ), i < metric.length →
      ((checkpointSavesAux best metric).getD i false = true ↔
        ((∀ j, j < i → metric.getD j 0 < metric.getD i 0)
         ∧ ∀ b, best = some b → b < metric.getD i 0)) := by
  induction metric with
  | nil => intro best i h; simp at h
  | cons v rest ih =>
    intro best i h
    match i with
    | 0 =>
      simp only [checkpointSavesAux, List.getD_cons_zero]
      constructor
      · intro hs
        refine ⟨fun j hj => absurd hj (Nat.not_lt_zero j), ?_⟩
        intro b hb
        cases best with
        | none => cases hb
        | some b' =>
          cases hb
          by_contra hlt
          simp [checkpointStep, if_neg hlt] at hs
      · rintro ⟨-, hb⟩
        cases best with
        | none => rfl
        | some b' => simp [checkpointStep, hb b' rfl]
    | i + 1 =>
      have hlen : i < rest.length := Nat.lt_of_succ_lt_succ h
      simp only [checkpointSavesAux, List.getD_cons_succ]
      rw [ih (checkpointStep best v).2 i hlen]
      have hsplit : (∀ j, j < i + 1 → (v :: rest).getD j 0 < rest.getD i 0) ↔
          (v < rest.getD i 0 ∧ ∀ j, j < i → rest.getD j 0 < rest.getD i 0) := by
        constructor
        · intro hAll
          refine ⟨hAll 0 (Nat.succ_pos i), fun j hj => ?_⟩
          have := hAll (j + 1) (Nat.succ_lt_succ hj)
          simpa using this
        · rintro ⟨h0, hr⟩ j hj
          match j with
          | 0 => simpa using h0
          | j + 1 => simpa using hr j (Nat.lt_of_succ_lt_succ hj)
      rw [hsplit]
      cases best with
      | none =>
        simp only [checkpointStep]
        constructor
        · rintro ⟨hr, hb⟩
          exact ⟨⟨hb v rfl, hr⟩, fun b hb' => by cases hb'⟩
        · rintro ⟨⟨h0, hr⟩, -⟩
          exact ⟨hr, fun b hb => by cases hb; exact h0⟩
      | some b' =>
        simp only [checkpointStep]
        by_cases hbv : b' < v
        · simp only [if_pos hbv]
          constructor
          · rintro ⟨hr, hb⟩
            have hv := hb v rfl
            exact ⟨⟨hv, hr⟩, fun b hb' => by cases hb'; exact lt_trans hbv hv⟩
          · rintro ⟨⟨h0, hr⟩, -⟩
            exact ⟨hr, fun b hb => by cases hb; exact h0⟩
        · simp only [if_neg hbv]
          constructor
          · rintro ⟨hr, hb⟩
            have hb'' := hb b' rfl
            exact ⟨⟨lt_of_le_of_lt (le_of_not_lt hbv) hb'', hr⟩,
              fun b hb' => by cases hb'; exact hb''⟩
          · rintro ⟨⟨h0, hr⟩, hb⟩
            exact ⟨hr, hb⟩

/-- C2: during a `trainSegmentation` run the checkpoint file is (over)written
after an epoch exactly when that epoch's monitored value strictly improves
(under the configured higher-is-better comparison) over its value in all
previous epochs of the run; the configuration of lines 217-221 monitors the
metric named `'val_loss'` while requesting comparison mode `'max'`, with
`save_best_only=True`. -/
theorem segmentation_checkpoint_policy (cfg : TrainerConfig) (nt nv : ℕ)
    (metric : List ℚ) (i : ℕ) (hi : i < metric.length) :
    ((checkpointSaves metric).getD i false = true ↔
      ∀ j, j < i → metric.getD j 0 < metric.getD i 0)
    ∧ (trainSegmentationCall cfg nt nv).monitor = "val_loss"
    ∧ (trainSegmentationCall cfg nt nv).checkpoint_mode = "max"
    ∧ (trainSegmentationCall cfg nt nv).save_best_only = true := by
  refine ⟨?_, rfl, rfl, rfl⟩
  rw [checkpointSaves, checkpointSavesAux_getD metric none i hi]
  constructor
  · rintro ⟨hr, -⟩; exact hr
  · intro hr; exact ⟨hr, fun b hb => by cases hb⟩

/-- Witness for C2 on a three-epoch run with monitored values 1, 3, 2 at
epoch 1. -/
theorem segmentation_checkpoint_policy_witness :
    (1 < ([1, 3, 2] : List ℚ).length)
    ∧ (((checkpointSaves [1, 3, 2]).getD 1 false = true ↔
        ∀ j, j < 1 → ([1, 3, 2] : List ℚ).getD j 0 < ([1, 3, 2] : List ℚ).getD 1 0)
    ∧ (trainSegmentationCall ⟨32, 10, 1⟩ 100 20).monitor = "val_loss"
    ∧ (trainSegmentationCall ⟨32, 10, 1⟩ 100 20).checkpoint_mode = "max"
    ∧ (trainSegmentationCall ⟨32, 10, 1⟩ 100 20).save_best_only = true) :=
  ⟨by decide, segmentation_checkpoint_policy ⟨32, 10, 1⟩ 100 20 [1, 3, 2] 1 (by decide)⟩

/-- Decomposition of membership in a `zipWith`. -/
theorem mem_of_mem_zipWith {α β γ : Type} {f : α → β → γ} :
    ∀ {l1 : List α} {l2 : List β} {c : γ}, c ∈ List.zipWith f l1 l2 →
      ∃ a ∈ l1, ∃ b ∈ l2, c = f a b := by
  intro l1
  induction l1 with
  | nil => intro l2 c h; simp at h
  | cons x xs ih =>
    intro l2 c h
    cases l2 with
    | nil => simp at h
    | cons y ys =>
      simp only [List.zipWith, List.mem_cons] at h
      rcases h with h | h
      · exact ⟨x, List.mem_cons_self x xs, y, List.mem_cons_self y ys, h⟩
      · rcases ih h with ⟨a, ha, b, hb, rfl⟩
        exact ⟨a, List.mem_cons_of_mem x ha, b, List.mem_cons_of_mem y hb, rfl⟩

/-- Unpacking `allZero2`. -/
theorem allZero2_entries {p : List (List ℚ)} (h : allZero2 p = true) :
    ∀ r ∈ p, ∀ x ∈ r, x = 0 := by
  intro r hr x hx
  have h1 := List.all_eq_true.mp h r hr
  have h2 := List.all_eq_true.mp h1 x hx
  exact of_decide_eq_true h2

/-- Unpacking `allZero3`. -/
theorem allZero3_blocks {s : Sample} (h : allZero3 s = true) :
    ∀ p ∈ s, allZero2 p = true := fun p hp => List.all_eq_true.mp h p hp

/-- Unpacking `allZeroBatch`. -/
theorem allZeroBatch_samples {b : List Sample} (h : allZeroBatch b = true) :
    ∀ s ∈ b, allZero3 s = true := fun s hs => List.all_eq_true.mp h s hs

/-- An all-zero 2-D block sums to zero. -/
theorem sum2_eq_zero {p : List (List ℚ)} (h : allZero2 p = true) : sum2 p = 0 := by
  unfold sum2
  apply List.sum_eq_zero
  intro x hx
  rcases List.mem_map.mp hx with ⟨r, hr, rfl⟩
  exact List.sum_eq_zero (fun q hq => allZero2_entries h r hr q hq)

/-- An all-zero sample sums to zero. -/
theorem sum3_eq_zero {s : Sample} (h : allZero3 s = true) : sum3 s = 0 := by
  unfold sum3
  apply List.sum_eq_zero
  intro x hx
  rcases List.mem_map.mp hx with ⟨p, hp, rfl⟩
  exact sum2_eq_zero (allZero3_blocks h p hp)

/-- The elementwise product against an all-zero sample sums to zero. -/
theorem sum3_mul3_zero {a : Sample} (b : Sample) (h : allZero3 a = true) :
    sum3 (mul3 a b) = 0 := by
  unfold sum3 mul3
  apply List.sum_eq_zero
  intro x hx
  rcases List.mem_map.mp hx with ⟨p, hp, rfl⟩
  rcases mem_of_mem_zipWith hp with ⟨pa, hpa, pb, hpb, rfl⟩
  unfold sum2 mul2
  apply List.sum_eq_zero
  intro y hy
  rcases List.mem_map.mp hy with ⟨r, hr, rfl⟩
  rcases mem_of_mem_zipWith hr with ⟨ra, hra, rb, hrb, rfl⟩
  apply List.sum_eq_zero
  intro z hz
  rcases mem_of_mem_zipWith hz with ⟨za, hza, zb, hzb, rfl⟩
  have hz0 : za = 0 := allZero2_entries (allZero3_blocks h pa hpa) ra hra za hza
  rw [hz0, zero_mul]

/-- A list of ones sums to its length. -/
theorem sum_of_all_ones : ∀ (l : List ℚ), (∀ x ∈ l, x = 1) → l.sum = (l.length : ℚ) := by
  intro l
  induction l with
  | nil => simp
  | cons x xs ih =>
    intro h
    rw [List.sum_cons, h x (List.mem_cons_self x xs),
      ih (fun y hy => h y (List.mem_cons_of_mem x hy))]
    push_cast [List.length_cons]
    ring

/-- C6: on all-zero truth and prediction batches (of equal, nonzero batch
size) the smoothed overlap coefficient with smoothing constant 1 is
well-defined — every per-sample denominator `union + smooth` equals 1, hence
is nonzero — and its value is exactly 1, since numerator and denominator of
every per-sample ratio both reduce to the smoothing constant. -/
theorem diceCoeff_all_zero_inputs (y_true y_pred : List Sample)
    (hlen : y_true.length = y_pred.length) (hne : y_true ≠ [])
    (hz1 : allZeroBatch y_true = true) (hz2 : allZeroBatch y_pred = true) :
    (∀ u ∈ diceUnion y_true y_pred, u + 1 ≠ 0)
    ∧ diceCoeff y_true y_pred 1 = 1 := by
  have hI : ∀ x ∈ diceIntersection y_true y_pred, x = 0 := by
    intro x hx
    rcases mem_of_mem_zipWith hx with ⟨a, ha, b, hb, rfl⟩
    exact sum3_mul3_zero b (allZeroBatch_samples hz1 a ha)
  have hU : ∀ u ∈ diceUnion y_true y_pred, u = 0 := by
    intro u hu
    rcases mem_of_mem_zipWith hu with ⟨x, hx, y, hy, rfl⟩
    rcases List.mem_map.mp hx with ⟨a, ha, rfl⟩
    rcases List.mem_map.mp hy with ⟨b, hb, rfl⟩
    rw [sum3_eq_zero (allZeroBatch_samples hz1 a ha),
      sum3_eq_zero (allZeroBatch_samples hz2 b hb), add_zero]
  refine ⟨fun u hu => by rw [hU u hu]; norm_num, ?_⟩
  have hall : ∀ x ∈ List.zipWith (fun i u => (2 * i + 1) / (u + 1))
      (diceIntersection y_true y_pred) (diceUnion y_true y_pred), x = 1 := by
    intro x hx
    rcases mem_of_mem_zipWith hx with ⟨i, hi, u, hu, rfl⟩
    rw [hI i hi, hU u hu]
    norm_num
  have hlen2 : (List.zipWith (fun i u => (2 * i + 1) / (u + 1))
      (diceIntersection y_true y_pred) (diceUnion y_true y_pred)).length
      = y_true.length := by
    simp [List.length_zipWith, diceIntersection, diceUnion, hlen]
  have h1 := sum_of_all_ones _ hall
  have hne' : ((y_true.length : ℚ)) ≠ 0 :=
    Nat.cast_ne_zero.mpr (fun h0 => hne (List.length_eq_zero.mp h0))
  unfold diceCoeff mean
  rw [h1, hlen2, div_self hne']

/-- Witness for C6 on the all-zero batch with one 1x1x1 sample. -/
theorem diceCoeff_all_zero_inputs_witness :
    (([[[[(0 : ℚ)]]]] : List Sample).length = ([[[[(0 : ℚ)]]]] : List Sample).length
     ∧ ([[[[(0 : ℚ)]]]] : List Sample) ≠ []
     ∧ allZeroBatch [[[[(0 : ℚ)]]]] = true)
    ∧ ((∀ u ∈ diceUnion [[[[(0 : ℚ)]]]] [[[[(0 : ℚ)]]]], u + 1 ≠ 0)
       ∧ diceCoeff [[[[(0 : ℚ)]]]] [[[[(0 : ℚ)]]]] 1 = 1) :=
  ⟨⟨rfl, by decide, by decide⟩,
    diceCoeff_all_zero_inputs [[[[(0 : ℚ)]]]] [[[[(0 : ℚ)]]]]
      rfl (by decide) (by decide) (by decide)⟩

/-- A successful dict lookup means the key is present. -/
theorem lookupHist_some_mem {k : String} {v : List ℚ} :
    ∀ {h : List (String × List ℚ)}, lookupHist k h = some v → ∃ p ∈ h, p.1 = k := by
  intro h
  induction h with
  | nil => intro hl; cases hl
  | cons p rest ih =>
    intro hl
    by_cases hp : p.1 = k
    · exact ⟨p, List.mem_cons_self p rest, hp⟩
    · rw [lookupHist, if_neg hp] at hl
      rcases ih hl with ⟨q, hq, hqk⟩
      exact ⟨q, List.mem_cons_of_mem p hq, hqk⟩

/-- In a history with no `val_`-prefixed keys, looking up a `val_`-prefixed
key raises `KeyError`. -/
theorem lookupHist_none_of_no_val {results : List (String × List ℚ)}
    (hv : ∀ p ∈ results, p.1.data.take 4 ≠ ['v', 'a', 'l', '_'])
    {k : String} (hk : k.data.take 4 = ['v', 'a', 'l', '_']) :
    lookupHist k results = none := by
  cases hres : lookupHist k results with
  | none => rfl
  | some v =>
    rcases lookupHist_some_mem hres with ⟨p, hp, hpk⟩
    have : p.1.data.take 4 = ['v', 'a', 'l', '_'] := by rw [hpk]; exact hk
    exact absurd this (hv p hp)

/-- C9: on a history that has the required training keys but no
`val_`-prefixed keys, `trainingStatistics` completes without raising, prints
the "No validation metrics available." warning, and saves exactly the
training-side plot artifacts (no VAL plots, no validation-statistics plot). -/
theorem trainingStatistics_missing_validation_keys
    (results : List (String × List ℚ)) (mode : ℤ)
    (ha : lookupHist "accuracy" results ≠ none)
    (hl : lookupHist "loss" results ≠ none)
    (hd : mode = 1 → lookupHist "diceCoeff" results ≠ none)
    (hv : ∀ p ∈ results, p.1.data.take 4 ≠ ['v', 'a', 'l', '_']) :
    trainingStatistics results mode =
      Except.ok ((if mode = 1 then ["Train_dice_coef"] else [])
        ++ ["Train_loss", "Train_accuracy", "Training statistics"],
        ["No validation metrics available."]) := by
  rcases Option.ne_none_iff_exists'.mp ha with ⟨a, ha'⟩
  rcases Option.ne_none_iff_exists'.mp hl with ⟨l, hl'⟩
  have hva : lookupHist "val_accuracy" results = none :=
    lookupHist_none_of_no_val hv (by decide)
  have hvm : valMetricsLookup results mode = none := by
    rw [valMetricsLookup, hva]
  by_cases hm : mode = 1
  · subst hm
    rcases Option.ne_none_iff_exists'.mp (hd rfl) with ⟨d, hd'⟩
    simp [trainingStatistics, ha', hl', hd', hvm, statsArtifacts]
  · simp [trainingStatistics, ha', hl', hm, hvm, statsArtifacts]

/-- Witness for C9 on a history holding only `accuracy` and `loss`, with
`mode = 0`. -/
theorem trainingStatistics_missing_validation_keys_witness :
    (lookupHist "accuracy" [("accuracy", [1]), ("loss", [2])] ≠ none
     ∧ lookupHist "loss" [("accuracy", [1]), ("loss", [2])] ≠ none
     ∧ ((0 : ℤ) = 1 → lookupHist "diceCoeff" [("accuracy", [1]), ("loss", [2])] ≠ none)
     ∧ ∀ p ∈ ([("accuracy", [1]), ("loss", [2])] : List (String × List ℚ)),
         p.1.data.take 4 ≠ ['v', 'a', 'l', '_'])
    ∧ trainingStatistics [("accuracy", [1]), ("loss", [2])] 0 =
        Except.ok ((if (0 : ℤ) = 1 then ["Train_dice_coef"] else [])
          ++ ["Train_loss", "Train_accuracy", "Training statistics"],
          ["No validation metrics available."]) :=
  ⟨⟨by decide, by decide, by decide, by decide⟩,
    trainingStatistics_missing_validation_keys [("accuracy", [1]), ("loss", [2])] 0
      (by decide) (by decide) (by decide) (by decide)⟩

/-- C10: with `mode = 1` on a history whose training keys lack `diceCoeff`
(but have `accuracy` and `loss`), `trainingStatistics` raises an uncaught
key-lookup error for `diceCoeff` with no plot artifact produced before the
raise: the `try` tolerance covers only the `val_`-prefixed keys. -/
theorem trainingStatistics_missing_diceCoeff_key_raises
    (results : List (String × List ℚ))
    (ha : lookupHist "accuracy" results ≠ none)
    (hl : lookupHist "loss" results ≠ none)
    (hd : lookupHist "diceCoeff" results = none) :
    trainingStatistics results 1 = Except.error ("diceCoeff", []) := by
  rcases Option.ne_none_iff_exists'.mp ha with ⟨a, ha'⟩
  rcases Option.ne_none_iff_exists'.mp hl with ⟨l, hl'⟩
  simp [trainingStatistics, ha', hl', hd]

/-- Witness for C10 on a history holding `accuracy`, `loss` and
`val_accuracy` but no `diceCoeff`. -/
theorem trainingStatistics_missing_diceCoeff_key_raises_witness :
    (lookupHist "accuracy" [("accuracy", [1]), ("loss", [2]), ("val_accuracy", [3])] ≠ none
     ∧ lookupHist "loss" [("accuracy", [1]), ("loss", [2]), ("val_accuracy", [3])] ≠ none
     ∧ lookupHist "diceCoeff" [("accuracy", [1]), ("loss", [2]), ("val_accuracy", [3])] = none)
    ∧ trainingStatistics [("accuracy", [1]), ("loss", [2]), ("val_accuracy", [3])] 1 =
        Except.error ("diceCoeff", []) :=
  ⟨⟨by decide, by decide, by decide⟩,
    trainingStatistics_missing_diceCoeff_key_raises
      [("accuracy", [1]), ("loss", [2]), ("val_accuracy", [3])]
      (by decide) (by decide) (by decide)⟩

/-- The oversampling loop only ever appends: its result is the accumulator
followed by the duplicate blocks. -/
theorem oversampleLoop_eq (choice : List ℕ → ℕ → List ℕ) (t : List AnnotationRow)
    (mc : ℕ) : ∀ (L : List (String × ℕ)) (acc : List AnnotationRow),
      oversampleLoop choice t mc L acc = acc ++ dupsOf choice t mc L := by
  intro L
  induction L with
  | nil => intro acc; simp [oversampleLoop, dupsOf]
  | cons p rest ih =>
    intro acc
    rw [oversampleLoop, dupsOf, ih, List.append_assoc]

/-- Rows looked up through a class's index list carry that class. -/
theorem mem_classIndexList {t : List AnnotationRow} {c : String} {i : ℕ}
    (h : i ∈ classIndexList t c) : (t.getD i default).cls = c :=
  of_decide_eq_true (List.mem_filter.mp h).2

/-- A duplicate block contributes its full length to its own class's count
and nothing to any other class. -/
theorem dupRows_countP (choice : List ℕ → ℕ → List ℕ) (t : List AnnotationRow)
    (mc : ℕ) (p : String × ℕ)
    (hlen : (choice (classIndexList t p.1) (mc - p.2)).length = mc - p.2)
    (hmem : ∀ i ∈ choice (classIndexList t p.1) (mc - p.2), i ∈ classIndexList t p.1)
    (c : String) :
    (dupRows choice t mc p).countP (fun r => decide (r.cls = c)) =
      if p.1 = c then mc - p.2 else 0 := by
  unfold dupRows
  rw [List.countP_map]
  by_cases hc : p.1 = c
  · rw [if_pos hc]
    have hall : List.countP ((fun r => decide (r.cls = c)) ∘ fun i => t.getD i default)
        (choice (classIndexList t p.1) (mc - p.2))
        = (choice (classIndexList t p.1) (mc - p.2)).length :=
      List.countP_eq_length.mpr (fun i hi =>
        decide_eq_true ((mem_classIndexList (hmem i hi)).trans hc))
    rw [hall, hlen]
  · rw [if_neg hc]
    apply List.countP_eq_zero.mpr
    intro i hi hcontra
    exact hc ((mem_classIndexList (hmem i hi)).symm.trans (of_decide_eq_true hcontra))

/-- Per-class count of all duplicate blocks together. -/
theorem dupsOf_countP (choice : List ℕ → ℕ → List ℕ) (t : List AnnotationRow)
    (mc : ℕ) (c : String) :
    ∀ L : List (String × ℕ),
      (∀ p ∈ L,
        (choice (classIndexList t p.1) (mc - p.2)).length = mc - p.2
        ∧ ∀ i ∈ choice (classIndexList t p.1) (mc - p.2), i ∈ classIndexList t p.1) →
      (dupsOf choice t mc L).countP (fun r => decide (r.cls = c))
        = (L.map (fun p => if p.1 = c then mc - p.2 else 0)).sum := by
  intro L
  induction L with
  | nil => intro _; simp [dupsOf]
  | cons p rest ih =>
    intro hL
    rw [dupsOf, List.countP_append,
      dupRows_countP choice t mc p (hL p (List.mem_cons_self p rest)).1
        (hL p (List.mem_cons_self p rest)).2 c,
      ih (fun q hq => hL q (List.mem_cons_of_mem p hq)),
      List.map_cons, List.sum_cons]

/-- Total length of all duplicate blocks together. -/
theorem dupsOf_length (choice : List ℕ → ℕ → List ℕ) (t : List AnnotationRow)
    (mc : ℕ) :
    ∀ L : List (String × ℕ),
      (∀ p ∈ L, (choice (classIndexList t p.1) (mc - p.2)).length = mc - p.2) →
      (dupsOf choice t mc L).length = (L.map (fun p => mc - p.2)).sum := by
  intro L
  induction L with
  | nil => intro _; simp [dupsOf]
  | cons p rest ih =>
    intro hL
    rw [dupsOf, List.length_append]
    rw [show (dupRows choice t mc p).length = mc - p.2 from by
      unfold dupRows; rw [List.length_map]; exact hL p (List.mem_cons_self p rest)]
    rw [ih (fun q hq => hL q (List.mem_cons_of_mem p hq)), List.map_cons, List.sum_cons]

/-- Sorting by descending count only permutes the (class, count) pairs. -/
theorem valueCounts_perm (t : List AnnotationRow) :
    (valueCounts t).Perm (classPairs t) :=
  List.perm_insertionSort countDescRel (classPairs t)

/-- The keys of `classPairs` are the distinct classes. -/
theorem classPairs_keys (t : List AnnotationRow) :
    (classPairs t).map Prod.fst = classList t := by
  unfold classPairs
  rw [List.map_map]
  exact List.map_id _

/-- Every entry of `valueCounts` pairs a present class with its count. -/
theorem mem_valueCounts {t : List AnnotationRow} {p : String × ℕ}
    (h : p ∈ valueCounts t) : p.1 ∈ classList t ∧ p.2 = classCount t p.1 := by
  have hp : p ∈ classPairs t := (valueCounts_perm t).mem_iff.mp h
  rcases List.mem_map.mp hp with ⟨c, hc, rfl⟩
  exact ⟨hc, rfl⟩

/-- `valueCounts` lists every class exactly once. -/
theorem valueCounts_keys_nodup (t : List AnnotationRow) :
    ((valueCounts t).map Prod.fst).Nodup := by
  have hperm : ((classPairs t).map Prod.fst).Perm ((valueCounts t).map Prod.fst) :=
    ((valueCounts_perm t).symm).map Prod.fst
  apply hperm.nodup
  rw [classPairs_keys]
  exact List.nodup_dedup _

/-- A present class appears in `valueCounts` with its count. -/
theorem pair_mem_valueCounts {t : List AnnotationRow} {c : String}
    (h : c ∈ classList t) : (c, classCount t c) ∈ valueCounts t :=
  (valueCounts_perm t).mem_iff.mpr (List.mem_map_of_mem _ h)

/-- Summing a function that vanishes off key `c` over a key-nodup pair list
containing `(c, k)` yields the value at `(c, k)`. -/
theorem sum_ite_key (c : String) (g : String × ℕ → ℕ) :
    ∀ (L : List (String × ℕ)) (k : ℕ), (L.map Prod.fst).Nodup → (c, k) ∈ L →
      (L.map (fun p => if p.1 = c then g p else 0)).sum = g (c, k) := by
  intro L
  induction L with
  | nil => intro k _ hk; simp at hk
  | cons q rest ih =>
    intro k hnd hk
    have hnd' := List.nodup_cons.mp (show (q.1 :: rest.map Prod.fst).Nodup by
      simpa using hnd)
    rw [List.map_cons, List.sum_cons]
    rcases List.mem_cons.mp hk with hq | hrest
    · subst hq
      have h0 : (rest.map (fun p => if p.1 = c then g p else 0)).sum = 0 := by
        apply List.sum_eq_zero
        intro x hx
        rcases List.mem_map.mp hx with ⟨p, hp, rfl⟩
        rw [if_neg]
        intro hpc
        have hmemk : p.1 ∈ rest.map Prod.fst := List.mem_map_of_mem Prod.fst hp
        rw [hpc] at hmemk
        exact hnd'.1 hmemk
      simp [h0]
    · have hq1 : q.1 ≠ c := by
        intro hqc
        apply hnd'.1
        rw [hqc]
        exact List.mem_map_of_mem Prod.fst hrest
      rw [if_neg hq1, zero_add]
      exact ih k hnd'.2 hrest

/-- Everything in a list is at most its `foldr max 0`. -/
theorem le_foldr_max (a : ℕ) : ∀ l : List ℕ, a ∈ l → a ≤ l.foldr max 0 := by
  intro l
  induction l with
  | nil => intro h; simp at h
  | cons b rest ih =>
    intro h
    rcases List.mem_cons.mp h with rfl | h'
    · exact le_max_left a (rest.foldr max 0)
    · exact le_trans (ih h') (le_max_right b (rest.foldr max 0))

/-- Every present class's count is at most the maximum class count. -/
theorem classCount_le_max {t : List AnnotationRow} {c : String}
    (h : c ∈ classList t) : classCount t c ≤ maxClassCount t :=
  le_foldr_max _ _ (List.mem_map_of_mem Prod.snd (pair_mem_valueCounts h))

/-- The summed per-class deficits over `valueCounts` equal `totalDeficit`. -/
theorem vc_deficit_sum (t : List AnnotationRow) :
    ((valueCounts t).map (fun p => maxClassCount t - p.2)).sum = totalDeficit t := by
  have hperm : ((valueCounts t).map (fun p => maxClassCount t - p.2)).Perm
      ((classPairs t).map (fun p => maxClassCount t - p.2)) :=
    (valueCounts_perm t).map _
  rw [hperm.sum_eq]
  unfold totalDeficit classPairs
  rw [List.map_map]
  rfl

/-- C4: whenever the injected random source satisfies the `random.choices`
contract at every call site, the oversampling step of
`trainMountingConfigClassifier` brings every class of the original table to
the maximum original class count, the output row count is the original row
count plus the sum of per-class deficits, and every original row is still
present (the output extends the original table; rows are only duplicated,
never removed). -/
theorem oversample_balances_classes (choice : List ℕ → ℕ → List ℕ)
    (t : List AnnotationRow) (hch : ChoiceOk choice t) :
    (∀ c ∈ classList t, classCount (overSample choice t) c = maxClassCount t)
    ∧ (overSample choice t).length = t.length + totalDeficit t
    ∧ ∃ extra, overSample choice t = t ++ extra := by
  have hrw : overSample choice t
      = t ++ dupsOf choice t (maxClassCount t) (valueCounts t) :=
    oversampleLoop_eq choice t (maxClassCount t) (valueCounts t) t
  refine ⟨?_, ?_, ⟨_, hrw⟩⟩
  · intro c hc
    unfold classCount
    rw [hrw, List.countP_append,
      dupsOf_countP choice t (maxClassCount t) c (valueCounts t) (fun p hp => hch p hp),
      sum_ite_key c (fun p => maxClassCount t - p.2) (valueCounts t) (classCount t c)
        (valueCounts_keys_nodup t) (pair_mem_valueCounts hc)]
    exact Nat.add_sub_cancel' (classCount_le_max hc)
  · rw [hrw, List.length_append,
      dupsOf_length choice t (maxClassCount t) (valueCounts t) (fun p hp => (hch p hp).1),
      vc_deficit_sum]

/-- Witness for C4 on a concrete three-row table (classes "ground-fixed"
twice and "rooftop-fixed" once) with a deterministic choice function. -/
theorem oversample_balances_classes_witness :
    ChoiceOk exampleChoice exampleTable
    ∧ ((∀ c ∈ classList exampleTable,
          classCount (overSample exampleChoice exampleTable) c = maxClassCount exampleTable)
       ∧ (overSample exampleChoice exampleTable).length
           = exampleTable.length + totalDeficit exampleTable
       ∧ ∃ extra, overSample exampleChoice exampleTable = exampleTable ++ extra) :=
  ⟨by decide, oversample_balances_classes exampleChoice exampleTable (by decide)⟩

/-- C5: with distinct training and validation directories, replaying the CSV
writes of `trainMountingConfigClassifier` leaves the validation annotation
table exactly as the format conversion produced it (the balancing step writes
to it zero further times — it is written exactly once overall), while the
training path ends up holding the rebalanced table in place of the original. -/
theorem balancing_train_table_only (choice : List ℕ → ℕ → List ℕ)
    (train_path val_path : String) (train_table val_table : List AnnotationRow)
    (hne : train_path ≠ val_path) :
    finalFileContent (mountingWriteLog choice train_path val_path train_table val_table)
        (annotationsCsvPath val_path) = some val_table
    ∧ finalFileContent (mountingWriteLog choice train_path val_path train_table val_table)
        (annotationsCsvPath train_path) = some (overSample choice train_table)
    ∧ (mountingWriteLog choice train_path val_path train_table val_table).countP
        (fun e => decide (e.1 = annotationsCsvPath val_path)) = 1 := by
  have hpaths : annotationsCsvPath train_path ≠ annotationsCsvPath val_path := by
    intro h
    apply hne
    have hd : (train_path ++ "/annotations.csv").data
        = (val_path ++ "/annotations.csv").data := by
      have h' : train_path ++ "/annotations.csv" = val_path ++ "/annotations.csv" := h
      rw [h']
    rw [String.data_append, String.data_append] at hd
    exact String.ext (List.append_cancel_right hd)
  refine ⟨?_, ?_, ?_⟩
  · simp [finalFileContent, mountingWriteLog, hpaths]
  · simp [finalFileContent, mountingWriteLog, Ne.symm hpaths]
  · simp [mountingWriteLog, List.countP_cons, hpaths]

/-- Witness for C5 with directories "train" and "val", the concrete table as
converted training annotations and an empty validation table. -/
theorem balancing_train_table_only_witness :
    (("train" : String) ≠ "val")
    ∧ (finalFileContent (mountingWriteLog exampleChoice "train" "val" exampleTable [])
          (annotationsCsvPath "val") = some []
       ∧ finalFileContent (mountingWriteLog exampleChoice "train" "val" exampleTable [])
          (annotationsCsvPath "train") = some (overSample exampleChoice exampleTable)
       ∧ (mountingWriteLog exampleChoice "train" "val" exampleTable []).countP
          (fun e => decide (e.1 = annotationsCsvPath "val")) = 1) :=
  ⟨by decide, balancing_train_table_only exampleChoice "train" "val" exampleTable []
    (by decide)⟩

end PanelTrain
